import Mathlib

/-!
Verification development for the `wikibook.py` Streamlit application
(`book-of-the-world`).  It shallowly embeds the pure data transformations
of the script — infobox scraping, image extraction, Wikidata property
merging, the search/fallback resolver, adapter call behaviour, the
bookmark session state, and the page-render control flow — and proves the
specified properties about them.
-/

namespace WikiBook

/-! Section: HTML document model

`BeautifulSoup` parse trees are modelled as a recursive node type.
An element node carries its tag name, its attribute list and its children;
a text node carries a string. -/

inductive HNode where
  | elem (tag : String) (attrs : List (String × String)) (children : List HNode)
  | text (s : String)
deriving Repr, Inhabited

/-- Attribute lookup (`tag.get(name)` / `tag[name]`). -/
def attrOf (attrs : List (String × String)) (k : String) : Option String :=
  (attrs.find? (fun p => p.1 = k)).map (fun p => p.2)

/-- Split a character list into maximal space-separated words. -/
def wordsAux : List Char → List Char → List String
  | [], acc => if acc.isEmpty then [] else [String.mk acc.reverse]
  | c :: cs, acc =>
    if c = ' ' then
      (if acc.isEmpty then wordsAux cs [] else String.mk acc.reverse :: wordsAux cs [])
    else
      wordsAux cs (c :: acc)

/-- The space-separated words of a string (how an HTML `class` attribute
value lists its classes). -/
def classWords (s : String) : List String :=
  wordsAux s.data []

/-- BeautifulSoup class matching: `{'class': c}` matches a tag whose
space-separated `class` attribute contains `c`. -/
def hasClass (attrs : List (String × String)) (c : String) : Bool :=
  match attrOf attrs "class" with
  | some s => (classWords s).contains c
  | none => false

/-- Locator predicate of `soup.find('table', clazz='infobox')`. -/
def isInfoboxTable : HNode → Bool
  | .elem t a _ => t = "table" && hasClass a "infobox"
  | .text _ => false

/-- Tag-name locator predicate (`soup.find('img')`, `row.find('th')`, ...). -/
def isTag (s : String) : HNode → Bool
  | .elem t _ _ => t = s
  | .text _ => false

mutual

/-- First node in preorder (the node itself or a descendant) satisfying `p`. -/
def findIn (p : HNode → Bool) : HNode → Option HNode
  | .text s => if p (.text s) then some (.text s) else none
  | .elem t a cs =>
    if p (.elem t a cs) then some (.elem t a cs) else findInList p cs

/-- First node in preorder over a forest satisfying `p`.  `soup.find(...)`
on a parsed document is this function on the document's top-level nodes. -/
def findInList (p : HNode → Bool) : List HNode → Option HNode
  | [] => none
  | n :: ns =>
    match findIn p n with
    | some r => some r
    | none => findInList p ns

end

/-- BeautifulSoup `element.find(...)`: search the element's descendants only. -/
def elemFind (p : HNode → Bool) : HNode → Option HNode
  | .text _ => none
  | .elem _ _ cs => findInList p cs

mutual

/-- All nodes of a subtree (the node itself included) satisfying `p`,
in preorder. -/
def allIn (p : HNode → Bool) : HNode → List HNode
  | .text s => if p (.text s) then [.text s] else []
  | .elem t a cs =>
    (if p (.elem t a cs) then [HNode.elem t a cs] else []) ++ allInList p cs

/-- All nodes of a forest satisfying `p`, in preorder. -/
def allInList (p : HNode → Bool) : List HNode → List HNode
  | [] => []
  | n :: ns => allIn p n ++ allInList p ns

end

/-- BeautifulSoup `element.find_all(...)`: all matching descendants of the element. -/
def elemFindAll (p : HNode → Bool) : HNode → List HNode
  | .text _ => []
  | .elem _ _ cs => allInList p cs

mutual

/-- All text-node contents of a subtree, in document order. -/
def textsOf : HNode → List String
  | .text s => [s]
  | .elem _ _ cs => textsOfList cs

/-- All text-node contents of a forest, in document order. -/
def textsOfList : List HNode → List String
  | [] => []
  | n :: ns => textsOf n ++ textsOfList ns

end

/-- BeautifulSoup `tag.get_text(separator=' ', strip=True)`: each string stripped,
all-whitespace strings dropped, the rest joined by a single space. -/
def getTextStrip (n : HNode) : String :=
  String.intercalate " " (((textsOf n).map String.trim).filter (fun s => s ≠ ""))

/-! Section: Infobox parsing (src/wikibook.py lines 389–399)

The module-level render block finds the first `table.infobox`, iterates over
its `tr` rows, and for each row having both a `th` and a `td` assigns
`info[key] = val` into a Python dict. -/

/-- Python dict assignment `m[k] = v` on an insertion-ordered association
list: an existing binding for `k` is overwritten in place, otherwise the
pair is appended. -/
def dictSet : List (String × String) → String → String → List (String × String)
  | [], k, v => [(k, v)]
  | (k', v') :: rest, k, v =>
    if k' = k then (k', v) :: rest else (k', v') :: dictSet rest k v

/-- Python dict lookup `m.get(k)`. -/
def dictGet : List (String × String) → String → Option String
  | [], _ => none
  | (k', v) :: rest, k => if k' = k then some v else dictGet rest k

/-- One row of the infobox: `if r.th and r.td:` yields the pair of the
stripped texts of the row's first `th` and first `td`, otherwise nothing. -/
def rowKV (r : HNode) : Option (String × String) :=
  match elemFind (isTag "th") r, elemFind (isTag "td") r with
  | some th, some td => some (getTextStrip th, getTextStrip td)
  | _, _ => none

/-- The `info` dict built from one infobox table (lines 392–398):
`rows = infobox.find_all('tr')`, then `info[key] = val` per qualifying row. -/
def tableInfo (t : HNode) : List (String × String) :=
  ((elemFindAll (isTag "tr") t).filterMap rowKV).foldl
    (fun m kv => dictSet m kv.1 kv.2) []

/-- The infobox-to-properties parse of the render block (lines 389–399):
the first `table.infobox` of the document is converted into the `info`
mapping; a document without one yields the empty mapping. -/
def parse_infobox (doc : List HNode) : List (String × String) :=
  match findInList isInfoboxTable doc with
  | some t => tableInfo t
  | none => []

/-! Section: Image extraction (src/wikibook.py lines 150–176, `get_commons_image_url`) -/

/-- Image locator. -/
def isImg : HNode → Bool := isTag "img"

/-- Attribute lookup `img.get('src')`. -/
def imgSrc : HNode → Option String
  | .elem _ a _ => attrOf a "src"
  | .text _ => none

/-- Protocol-relative URL normalization (lines 164–165 and 171–172):
`if src.startswith('//'): src = 'https:' + src`. -/
def normalizeSrc (s : String) : String :=
  match s.data with
  | '/' :: '/' :: _ => "https:" ++ s
  | _ => s

/-- Fallback of `get_commons_image_url` (lines 167–173): the first `img`
tag anywhere in the document, returned only when its `src` is truthy. -/
def fallbackImg (doc : List HNode) : Option String :=
  match findInList isImg doc with
  | some img =>
    match imgSrc img with
    | some s => if s ≠ "" then some (normalizeSrc s) else none
    | none => none
  | none => none

/-- The function `get_commons_image_url` (lines 150–176), on an already-parsed document:
try the first `img` inside the first `table.infobox`; if it has a truthy
`src`, return it normalized; otherwise fall back to the first `img` of the
whole document; with no usable image the result is `none` (no exception
escapes — the body is wrapped in `try/except: return None`). -/
def get_commons_image_url (doc : List HNode) : Option String :=
  match findInList isInfoboxTable doc with
  | some infobox =>
    (match elemFind isImg infobox with
     | some img =>
       (match imgSrc img with
        | some s => if s ≠ "" then some (normalizeSrc s) else fallbackImg doc
        | none => fallbackImg doc)
     | none => fallbackImg doc)
  | none => fallbackImg doc

/-- Formalisation of claim C4's wording, for comparison with
`get_commons_image_url`: return the image nested inside the infobox table
if one exists (its normalized `src`); otherwise the first image anywhere in
the fragment; with no image at all, `none`. -/
def claim_image (doc : List HNode) : Option String :=
  match (findInList isInfoboxTable doc).bind (elemFind isImg) with
  | some img => (imgSrc img).map normalizeSrc
  | none =>
    match findInList isImg doc with
    | some img => (imgSrc img).map normalizeSrc
    | none => none

/-! Section: Wikidata property merging (src/wikibook.py lines 206–218,
`get_wikidata_props`) -/

/-- One SPARQL result binding as consumed by `get_wikidata_props`:
`b.get('propLabel', {}).get('value')`, `b.get('valueLabel', {}).get('value')`
and `b.get('value', {}).get('value')`. -/
structure SparqlBinding where
  propLabel : Option String
  valueLabel : Option String
  value : Option String
deriving Repr, DecidableEq

/-- One entry of a property's value list:
`{'label': val, 'uri': val_uri}`. -/
structure PropVal where
  label : Option String
  uri : Option String
deriving Repr, DecidableEq

/-- Python `props.setdefault(prop, []).append(v)` on an insertion-ordered
association list of lists: append to the existing list for `k`, or create
a singleton list. -/
def appendProp : List (String × List PropVal) → String → PropVal →
    List (String × List PropVal)
  | [], k, v => [(k, [v])]
  | (k', vs) :: rest, k, v =>
    if k' = k then (k', vs ++ [v]) :: rest else (k', vs) :: appendProp rest k v

/-- Dict lookup on the property mapping. -/
def propsGet : List (String × List PropVal) → String → Option (List PropVal)
  | [], _ => none
  | (k', vs) :: rest, k => if k' = k then some vs else propsGet rest k

/-- The function `get_wikidata_props` (lines 206–218) applied to the response bindings:
for each binding whose `propLabel` is truthy (present and non-empty), the
pair (valueLabel, value uri) is appended to `props[propLabel]`. -/
def get_wikidata_props (bs : List SparqlBinding) : List (String × List PropVal) :=
  bs.foldl
    (fun props b =>
      match b.propLabel with
      | some p => if p ≠ "" then appendProp props p ⟨b.valueLabel, b.value⟩ else props
      | none => props)
    []

/-- The statements of a response carrying property name `k`, in source
order, shaped as `get_wikidata_props` stores them. -/
def valuesFor (bs : List SparqlBinding) (k : String) : List PropVal :=
  (bs.filter (fun b => b.propLabel = some k)).map (fun b => ⟨b.valueLabel, b.value⟩)

/-! Section: Resolver (src/wikibook.py lines 343–363) -/

/-- One Wikipedia search hit as used by the search handler (`r.get('title')`). -/
structure SearchHit where
  title : String
deriving Repr, DecidableEq

/-- One binding of the Wikidata label-fallback query
(`b['itemLabel']['value']` plus the item URI). -/
structure LabelBinding where
  item : String
  itemLabel : String
deriving Repr, DecidableEq

/-- SPARQL `LCASE`: character-wise lowercasing of a label. -/
def lcase (s : String) : String := String.mk (s.data.map Char.toLower)

/-- Models the public SPARQL endpoint evaluating the label-lookup query
built at line 351 — `?item rdfs:label ?label
FILTER(LCASE(?label) = LCASE(query)) ... LIMIT 20` — over a
knowledge-graph store of (item, label) pairs: the items whose label equals
the query case-insensitively, truncated to 20.  (Language tags and string
escaping of the remote engine are outside the model.) -/
def wikidata_label_search (store : List (String × String)) (q : String) :
    List LabelBinding :=
  ((store.filter (fun p => lcase p.2 = lcase q)).map
    (fun p => ⟨p.1, p.2⟩)).take 20

/-- The candidate titles offered by the search handler (lines 343–363):
the search-hit titles when the Wikipedia search returned any; otherwise the
labels of the Wikidata fallback when it succeeded; otherwise (the fallback
raised, caught at lines 359–360) no candidates.  The function is total:
no exception escapes this block. -/
def resolve_titles (hits : List SearchHit)
    (fallback : Except Unit (List LabelBinding)) : List String :=
  if hits.isEmpty then
    match fallback with
    | .ok binds => binds.map (fun b => b.itemLabel)
    | .error _ => []
  else
    hits.map (fun h => h.title)

/-! Section: Adapter HTTP call behaviour (src/wikibook.py lines 78–91 and
142–148)

`search_wikipedia` and `wikidata_sparql` each issue exactly one
`requests.get(...)` followed by `raise_for_status()`; there is no retry
loop of any kind.  The transport is modelled as an oracle giving the
outcome of the i-th HTTP call; each adapter returns its result paired with
the number of underlying calls it issued. -/

inductive HttpResp where
  | ok (body : String)
  | status (code : Nat)
  | netFail
deriving Repr, DecidableEq

inductive ReqError where
  | httpStatus (code : Nat)
  | transport
deriving Repr, DecidableEq

/-- One `requests.get` + `raise_for_status()`: a non-2xx status raises
`HTTPError`, a connection failure raises a transport error. -/
def requests_get (transport : Nat → HttpResp) (callIdx : Nat) :
    Except ReqError String :=
  match transport callIdx with
  | .ok b => .ok b
  | .status c => .error (.httpStatus c)
  | .netFail => .error .transport

/-- The adapter `wikidata_sparql` (lines 142–148): a single `requests.get` with
timeout 20; any error propagates to the caller unretried. -/
def wikidata_sparql_calls (transport : Nat → HttpResp) :
    Except ReqError String × Nat :=
  (requests_get transport 0, 1)

/-- The adapter `search_wikipedia` (lines 78–91): a single `requests.get` with
timeout 15; any error propagates to the caller unretried. -/
def search_wikipedia_calls (transport : Nat → HttpResp) :
    Except ReqError String × Nat :=
  (requests_get transport 0, 1)

/-! Section: Bookmark session state (src/wikibook.py lines 289, 292–293,
477–482) -/

inductive UiEvent where
  | bookmarkClick (title : String)
  | clearClick
deriving Repr, DecidableEq

/-- Lines 292–293: `st.session_state['bookmarks'] = []` on first run. -/
def bookmarks_init : List String := []

/-- The effect of one user event on the bookmark list.  Lines 477–482:
the bookmark button appends the current title only when it is not already
a member.  Line 289: `st.button("Clear bookmarks", key="clear_bkm")` —
the button's return value is discarded and no handler in the script ever
empties the list, so a click leaves the state unchanged. -/
def bookmarks_step (l : List String) : UiEvent → List String
  | .bookmarkClick t => if t ∈ l then l else l ++ [t]
  | .clearClick => l

/-! Section: Page render control flow (src/wikibook.py lines 371–424)

The render block assigns the Python local `thumb` only inside the
`if summary:` branch (line 378).  Line 413 reads
`if img_url and not thumb:` — `and` short-circuits, so `thumb` is read
only when `img_url` is truthy; reading it while unbound raises
`NameError`, caught by the handler at lines 484–485. -/

/-- The summary record as used by the render block:
`summary.get('extract')` and `summary.get('thumbnail', {}).get('source')`. -/
structure SummaryRec where
  extract : Option String
  thumbnail : Option String
deriving Repr, DecidableEq

/-- Python truthiness of an optional string (`None` and `''` are falsy). -/
def truthy : Option String → Bool
  | some s => s ≠ ""
  | none => false

/-- What the successful render path displayed, for the parts the claims
observe: the summary thumbnail, the infobox mapping, the commons-image
fallback, and whether the Wikidata enrichment section was reached. -/
structure RenderOut where
  thumbShown : Option String
  infobox : List (String × String)
  commonsShown : Option String
  wikidataShown : Bool
deriving Repr, DecidableEq

/-- The render block of lines 371–424 for a selected title, parameterized
by the adapter responses: the summary lookup result, the parsed article
document, and the Wikidata id lookup result.  `thumbVar` models the
Python local `thumb` (`none` = unbound; `some t` = bound to `t`).  The
coordinate scan of lines 400–410 catches its own exceptions and the
commons lookup (line 412) returns `None` on failure, so neither aborts;
the only uncaught raise in the modelled region is the `NameError` at
line 413. -/
def render_page (summary : Option SummaryRec) (doc : List HNode)
    (wikidata_id : Option String) : Except String RenderOut :=
  let thumbVar : Option (Option String) :=
    match summary with
    | some s => some s.thumbnail
    | none => none
  let thumbShown : Option String :=
    match thumbVar with
    | some t => if truthy t then t else none
    | none => none
  let info := parse_infobox doc
  let img_url := get_commons_image_url doc
  if truthy img_url then
    match thumbVar with
    | none => .error "NameError: name thumb is not defined"
    | some t =>
      let commonsShown := if truthy t then none else img_url
      .ok ⟨thumbShown, info, commonsShown, wikidata_id.isSome⟩
  else
    .ok ⟨thumbShown, info, none, wikidata_id.isSome⟩

/-! Section: Enrichment Aggregator (modelled from the spec)

The spec's §4.3/§7 Enrichment Aggregator — `enrich(candidate) ->
EnrichedEntity` with its per-adapter `sourceStatus` record — has no
implementation in `src/wikibook.py` (the module-level render block calls
the adapters directly and records no statuses), so it is modelled here
from the spec's words. -/

inductive AdapterName where
  | summary
  | properties
  | relatedEntities
  | coordinates
  | weather
deriving Repr, DecidableEq

inductive AdapterStatus where
  | ok
  | timeout
  | notFound
  | error
deriving Repr, DecidableEq

inductive AdapterError where
  | timeout
  | rateLimited
  | notFound
  | malformed
  | transport
deriving Repr, DecidableEq

/-- Modelled from the spec: the status recorded for one adapter outcome —
`Timeout` and `NotFound` map to their own statuses, every other failure is
reported as `error`. -/
def statusOfResult {α : Type} : Except AdapterError α → AdapterStatus
  | .ok _ => .ok
  | .error .timeout => .timeout
  | .error .notFound => .notFound
  | .error .rateLimited => .error
  | .error .malformed => .error
  | .error .transport => .error

/-- Modelled from the spec: coordinates as an abstract lat/lon pair (the
claims never inspect the values). -/
def Coord : Type := Int × Int

instance : DecidableEq Coord := by
  unfold Coord
  infer_instance

/-- Modelled from the spec: a Resolver candidate (§3). -/
structure Candidate where
  displayTitle : String
  canonicalId : Option String
deriving Repr, DecidableEq

/-- Modelled from the spec: the summary adapter's record (§4.3). -/
structure SummaryData where
  title : String
  summaryText : String
  thumbnailUrl : Option String
deriving Repr, DecidableEq

/-- Modelled from the spec: the settled outcomes of the fan-out branches
the Aggregator may attempt for one candidate. -/
structure AdapterResults where
  summaryR : Except AdapterError SummaryData
  propertiesR : Except AdapterError (List (String × List PropVal))
  relatedR : Except AdapterError (List String)
  coordinatesR : Except AdapterError (Option Coord)
  weatherR : Except AdapterError String

/-- Modelled from the spec: the `EnrichedEntity` record (§3). -/
structure EnrichedEntity where
  canonicalId : Option String
  title : String
  summaryText : String
  thumbnailUrl : Option String
  properties : List (String × List PropVal)
  coordinates : Option Coord
  relatedEntities : List String
  sourceStatus : List (AdapterName × AdapterStatus)
deriving DecidableEq

/-- Modelled from the spec: `enrich(candidate)` (§4.3, §7).  The summary
adapter is always attempted and its total failure fails the whole call;
with a canonical id the property, related-entity and coordinate branches
are attempted, each failure recorded in `sourceStatus` with the field left
at its zero value; the weather branch is attempted only when coordinates
are known. -/
def enrich (c : Candidate) (r : AdapterResults) : Except AdapterError EnrichedEntity :=
  match r.summaryR with
  | .error e => .error e
  | .ok s =>
    match c.canonicalId with
    | none =>
      .ok
        { canonicalId := none
          title := s.title
          summaryText := s.summaryText
          thumbnailUrl := s.thumbnailUrl
          properties := []
          coordinates := none
          relatedEntities := []
          sourceStatus := [(.summary, .ok)] }
    | some qid =>
      let props := match r.propertiesR with | .ok p => p | .error _ => []
      let rel := match r.relatedR with | .ok l => l | .error _ => []
      let coords := match r.coordinatesR with | .ok co => co | .error _ => none
      .ok
        { canonicalId := some qid
          title := s.title
          summaryText := s.summaryText
          thumbnailUrl := s.thumbnailUrl
          properties := props
          coordinates := coords
          relatedEntities := rel
          sourceStatus :=
            [(.summary, .ok),
             (.properties, statusOfResult r.propertiesR),
             (.relatedEntities, statusOfResult r.relatedR),
             (.coordinates, statusOfResult r.coordinatesR)] ++
            (if coords.isSome then [(.weather, statusOfResult r.weatherR)] else []) }

/-- Modelled from the spec: which adapters the Aggregator attempts for a
candidate (§4.3): summary always; properties, related entities and
coordinate derivation when a canonical id is present; weather only when
the coordinate branch yielded known coordinates. -/
def attempted (c : Candidate) (r : AdapterResults) : AdapterName → Bool
  | .summary => true
  | .properties => c.canonicalId.isSome
  | .relatedEntities => c.canonicalId.isSome
  | .coordinates => c.canonicalId.isSome
  | .weather =>
    c.canonicalId.isSome &&
      (match r.coordinatesR with | .ok co => co.isSome | .error _ => false)

/-! Section: Auxiliary definitions used by the statements below -/

/-- Left-biased choice on options (the shape of Python's
`x if x else y` chains). -/
def optOr {α : Type} : Option α → Option α → Option α
  | some v, _ => some v
  | none, b => b

/-- The image URL the infobox branch of `get_commons_image_url`
(lines 158–166) yields: the first `img` inside the given infobox when its
`src` is truthy. -/
def infoboxImgUrl (ib : HNode) : Option String :=
  match elemFind isImg ib with
  | some img =>
    (match imgSrc img with
     | some s => if s ≠ "" then some (normalizeSrc s) else none
     | none => none)
  | none => none

/-- An `img` element with no `src` attribute. -/
def imgNoSrc : HNode := .elem "img" [] []

/-- An `img` element with a protocol-relative `src`. -/
def imgX : HNode := .elem "img" [("src", "//x")] []

/-- An infobox table whose only image has no `src`. -/
def infoboxNoSrc : HNode := .elem "table" [("class", "infobox")] [imgNoSrc]

/-- A fragment whose infobox image has no `src` while an earlier image in
the document has one. -/
def docImgMix : List HNode := [imgX, infoboxNoSrc]

/-- A fragment with no infobox whose first image has no `src` and whose
second image has one. -/
def docImgPlain : List HNode := [imgNoSrc, imgX]

/-- A concrete infobox table with two rows. -/
def tblA : HNode :=
  .elem "table" [("class", "infobox")]
    [ .elem "tr" [] [.elem "th" [] [.text "Capital"], .elem "td" [] [.text "Paris"]],
      .elem "tr" [] [.elem "th" [] [.text "Capital"], .elem "td" [] [.text "Lyon"]] ]

/-- A second concrete infobox table, with a different row. -/
def tblB : HNode :=
  .elem "table" [("class", "infobox")]
    [ .elem "tr" [] [.elem "th" [] [.text "Area"], .elem "td" [] [.text "9"]] ]

/-- Two response bindings carrying the same property name. -/
def bEx1 : SparqlBinding := ⟨some "country", some "France", some "u1"⟩

/-- See `bEx1`. -/
def bEx2 : SparqlBinding := ⟨some "country", some "Spain", none⟩

/-- A concrete candidate with a canonical id. -/
def cEx : Candidate := ⟨"Earth", some "Q2"⟩

/-- Concrete adapter outcomes: summary succeeds, the property branch times
out, coordinates are known, the weather branch is rate limited. -/
def rEx : AdapterResults :=
  ⟨.ok ⟨"Earth", "third planet", none⟩, .error .timeout, .ok [],
   .ok (some ((0 : Int), (0 : Int))), .error .rateLimited⟩

/-- The enriched entity `enrich cEx rEx` produces. -/
def eEx : EnrichedEntity :=
  ⟨some "Q2", "Earth", "third planet", none, [], some ((0 : Int), (0 : Int)), [],
   [(.summary, .ok), (.properties, .timeout), (.relatedEntities, .ok),
    (.coordinates, .ok), (.weather, .error)]⟩

/-- The folding step of `get_wikidata_props`. -/
def propStep (props : List (String × List PropVal)) (b : SparqlBinding) :
    List (String × List PropVal) :=
  match b.propLabel with
  | some p => if p ≠ "" then appendProp props p ⟨b.valueLabel, b.value⟩ else props
  | none => props

/-! Section: Helper lemmas -/

theorem optOr_none_left {α : Type} (b : Option α) : optOr none b = b := rfl

theorem optOr_none_right {α : Type} (a : Option α) : optOr a none = a := by
  cases a <;> rfl

theorem findInList_append (p : HNode → Bool) (l₁ l₂ : List HNode) :
    findInList p (l₁ ++ l₂) = optOr (findInList p l₁) (findInList p l₂) := by
  induction l₁ with
  | nil => simp [findInList, optOr]
  | cons n ns ih =>
    simp only [List.cons_append, findInList]
    cases findIn p n <;> simp [optOr, ih]

mutual

theorem findIn_pred (q : HNode → Bool) (n : HNode) :
    ∀ t : HNode, findIn q n = some t → q t = true := by
  cases n with
  | text s =>
    intro t h
    unfold findIn at h
    split at h
    · cases h; assumption
    · cases h
  | elem tg a cs =>
    intro t h
    unfold findIn at h
    split at h
    · cases h; assumption
    · exact findInList_pred q cs t h

theorem findInList_pred (q : HNode → Bool) (l : List HNode) :
    ∀ t : HNode, findInList q l = some t → q t = true := by
  cases l with
  | nil => intro t h; cases h
  | cons n ns =>
    intro t h
    unfold findInList at h
    cases hn : findIn q n with
    | some r =>
      rw [hn] at h
      cases h
      exact findIn_pred q n t hn
    | none =>
      rw [hn] at h
      exact findInList_pred q ns t h

end

/-- A node with no `p`-match has `p`-free children. -/
theorem findInList_children_none (p : HNode → Bool) (tg : String)
    (a : List (String × String)) (cs : List HNode)
    (h : findIn p (.elem tg a cs) = none) : findInList p cs = none := by
  unfold findIn at h
  split at h
  · cases h
  · exact h

mutual

theorem findIn_sub_none (p q : HNode → Bool) (n : HNode) :
    ∀ t : HNode, findIn q n = some t → findIn p n = none → findIn p t = none := by
  cases n with
  | text s =>
    intro t h hp
    unfold findIn at h
    split at h
    · cases h; exact hp
    · cases h
  | elem tg a cs =>
    intro t h hp
    unfold findIn at h
    split at h
    · cases h; exact hp
    · have hcs : findInList p cs = none := findInList_children_none p tg a cs hp
      exact findInList_sub_none p q cs t h hcs

theorem findInList_sub_none (p q : HNode → Bool) (l : List HNode) :
    ∀ t : HNode, findInList q l = some t → findInList p l = none → findIn p t = none := by
  cases l with
  | nil => intro t h _; cases h
  | cons n ns =>
    intro t h hp
    unfold findInList at h hp
    cases hpn : findIn p n with
    | some r => rw [hpn] at hp; cases hp
    | none =>
      rw [hpn] at hp
      cases hn : findIn q n with
      | some r =>
        rw [hn] at h
        cases h
        exact findIn_sub_none p q n t hn hpn
      | none =>
        rw [hn] at h
        exact findInList_sub_none p q ns t h hp

end

theorem dictGet_dictSet (m : List (String × String)) (a k : String) (b : String) :
    dictGet (dictSet m a b) k = if a = k then some b else dictGet m k := by
  induction m with
  | nil =>
    by_cases h : a = k <;> simp [dictSet, dictGet, h]
  | cons p rest ih =>
    obtain ⟨k', v'⟩ := p
    by_cases h1 : k' = a
    · subst h1
      by_cases h2 : k' = k <;> simp [dictSet, dictGet, h2]
    · by_cases h2 : k' = k
      · subst h2
        have : ¬ a = k' := fun hh => h1 hh.symm
        simp [dictSet, dictGet, h1, this]
      · simp [dictSet, dictGet, h1, h2, ih]

theorem getLast?_cons_or {α : Type} (l : List α) :
    ∀ a : α, (a :: l).getLast? = optOr l.getLast? (some a) := by
  induction l with
  | nil => intro a; rfl
  | cons b l' ih =>
    intro a
    rw [List.getLast?_cons_cons, ih b]
    cases l'.getLast? <;> rfl

theorem dictGet_foldSet (ps : List (String × String))
    (m : List (String × String)) (k : String) :
    dictGet (ps.foldl (fun m kv => dictSet m kv.1 kv.2) m) k =
      optOr (((ps.filter (fun kv => kv.1 = k)).map (fun kv => kv.2)).getLast?)
        (dictGet m k) := by
  induction ps generalizing m with
  | nil => simp [optOr]
  | cons p rest ih =>
    obtain ⟨a, b⟩ := p
    rw [List.foldl_cons, ih, dictGet_dictSet]
    by_cases h : a = k
    · subst h
      have hf : List.filter (fun kv => decide (kv.1 = a)) ((a, b) :: rest) =
          (a, b) :: List.filter (fun kv => decide (kv.1 = a)) rest := by
        simp
      rw [if_pos rfl, hf, List.map_cons, getLast?_cons_or]
      cases (List.map (fun kv => kv.2)
          (List.filter (fun kv => decide (kv.1 = a)) rest)).getLast? <;> rfl
    · have hf : List.filter (fun kv => decide (kv.1 = k)) ((a, b) :: rest) =
          List.filter (fun kv => decide (kv.1 = k)) rest := by
        simp [h]
      rw [if_neg h, hf]

theorem propsGet_appendProp_self (m : List (String × List PropVal))
    (k : String) (v : PropVal) :
    propsGet (appendProp m k v) k = some ((propsGet m k).getD [] ++ [v]) := by
  induction m with
  | nil => simp [appendProp, propsGet]
  | cons p rest ih =>
    obtain ⟨k', vs⟩ := p
    by_cases h : k' = k
    · subst h
      simp [appendProp, propsGet]
    · simp [appendProp, propsGet, h, ih]

theorem propsGet_appendProp_ne (m : List (String × List PropVal))
    (k k' : String) (v : PropVal) (h : k' ≠ k) :
    propsGet (appendProp m k' v) k = propsGet m k := by
  induction m with
  | nil => simp [appendProp, propsGet, h]
  | cons p rest ih =>
    obtain ⟨a, vs⟩ := p
    by_cases h1 : a = k'
    · subst h1
      simp [appendProp, propsGet, h]
    · by_cases h2 : a = k
      · subst h2
        simp [appendProp, propsGet, h1]
      · simp [appendProp, propsGet, h1, h2, ih]

theorem get_wikidata_props_eq_fold (bs : List SparqlBinding) :
    get_wikidata_props bs = bs.foldl propStep [] := rfl

theorem propsGet_fold (bs : List SparqlBinding)
    (m : List (String × List PropVal)) (k : String) (hk : k ≠ "") :
    propsGet (bs.foldl propStep m) k =
      if valuesFor bs k = [] then propsGet m k
      else some ((propsGet m k).getD [] ++ valuesFor bs k) := by
  induction bs generalizing m with
  | nil => simp [valuesFor]
  | cons b rest ih =>
    rw [List.foldl_cons, ih]
    cases hb : b.propLabel with
    | none =>
      have hstep : propStep m b = m := by simp [propStep, hb]
      have hfil : valuesFor (b :: rest) k = valuesFor rest k := by
        simp [valuesFor, List.filter_cons, hb]
      rw [hstep, hfil]
    | some p =>
      by_cases hpk : p = k
      · have hstep : propStep m b = appendProp m k ⟨b.valueLabel, b.value⟩ := by
          simp [propStep, hb, hpk, hk]
        have hfil : valuesFor (b :: rest) k =
            ⟨b.valueLabel, b.value⟩ :: valuesFor rest k := by
          simp [valuesFor, List.filter_cons, hb, hpk]
        rw [hstep, hfil, propsGet_appendProp_self]
        by_cases hrest : valuesFor rest k = []
        · simp [hrest]
        · simp [hrest, List.append_assoc]
      · have hstep : propsGet (propStep m b) k = propsGet m k := by
          unfold propStep
          rw [hb]
          by_cases hp : p = ""
          · simp [hp]
          · simp only [ne_eq, hp, not_false_eq_true, if_pos]
            exact propsGet_appendProp_ne m k p ⟨b.valueLabel, b.value⟩ hpk
        have hfil : valuesFor (b :: rest) k = valuesFor rest k := by
          simp [valuesFor, List.filter_cons, hb, hpk]
        rw [hstep, hfil]

theorem adapterStatus_cases (st : AdapterStatus) :
    st = AdapterStatus.ok ∨ st = AdapterStatus.timeout ∨
    st = AdapterStatus.notFound ∨ st = AdapterStatus.error := by
  cases st
  · exact Or.inl rfl
  · exact Or.inr (Or.inl rfl)
  · exact Or.inr (Or.inr (Or.inl rfl))
  · exact Or.inr (Or.inr (Or.inr rfl))

/-! Section: Claim theorems -/

/-- Claim C2: When the knowledge-graph property response carries several
statements for the same (truthy) property name `k`, `get_wikidata_props`
keeps all of them under `k` in source order: the stored list is exactly
the response's statements carrying `k`, appended in order, never
overwritten. -/
theorem get_wikidata_props_appends (bs : List SparqlBinding) (k : String)
    (hk : k ≠ "") :
    propsGet (get_wikidata_props bs) k =
      if valuesFor bs k = [] then none else some (valuesFor bs k) := by
  rw [get_wikidata_props_eq_fold, propsGet_fold bs [] k hk]
  by_cases h : valuesFor bs k = [] <;> simp [h, propsGet]

/-- Witness for `get_wikidata_props_appends`: two statements for
"country" both appear, in source order. -/
theorem get_wikidata_props_appends_witness :
    propsGet (get_wikidata_props [bEx1, bEx2]) "country" =
      some [⟨some "France", some "u1"⟩, ⟨some "Spain", none⟩] := by
  have H := get_wikidata_props_appends [bEx1, bEx2] "country" (by decide)
  rw [H]
  rfl

/-- Claim C9: In the infobox parser — unlike the property adapter — a later
row with the same label overwrites the earlier value: the `info` mapping
holds, for each label, the value of the last qualifying row carrying it. -/
theorem tableInfo_last_value_wins (t : HNode) (k : String) :
    dictGet (tableInfo t) k =
      ((((elemFindAll (isTag "tr") t).filterMap rowKV).filter
          (fun kv => kv.1 = k)).map (fun kv => kv.2)).getLast? := by
  unfold tableInfo
  rw [dictGet_foldSet]
  simp [dictGet, optOr_none_right]

/-- Claim C5: When the Wikipedia search and the Wikidata label fallback both
return zero hits, the search handler produces the empty candidate
sequence; `resolve_titles` is a total function, so no exception is
raised. -/
theorem resolve_titles_empty (hits : List SearchHit) (binds : List LabelBinding)
    (h1 : hits = []) (h2 : binds = []) :
    resolve_titles hits (.ok binds) = [] := by
  subst h1
  subst h2
  rfl

/-- Witness for `resolve_titles_empty`. -/
theorem resolve_titles_empty_witness :
    resolve_titles [] (.ok []) = [] :=
  resolve_titles_empty [] [] rfl rfl

/-- Claim C6: When the Wikipedia search returns zero matches, the handler's
candidates are exactly the knowledge-graph items whose label equals the
query up to case (truncated by the query's LIMIT 20), and every candidate
label matches the query case-insensitively. -/
theorem resolve_fallback_label_match (hits : List SearchHit)
    (store : List (String × String)) (q : String) (h : hits = []) :
    resolve_titles hits (.ok (wikidata_label_search store q)) =
      ((store.filter (fun p => lcase p.2 = lcase q)).map
        (fun p => p.2)).take 20 ∧
    ∀ l ∈ resolve_titles hits (.ok (wikidata_label_search store q)),
      lcase l = lcase q := by
  subst h
  have e : resolve_titles [] (.ok (wikidata_label_search store q)) =
      ((store.filter (fun p => lcase p.2 = lcase q)).map
        (fun p => p.2)).take 20 := by
    have hc : ((fun b : LabelBinding => b.itemLabel) ∘
        fun p : String × String => (⟨p.1, p.2⟩ : LabelBinding)) =
        fun p : String × String => p.2 := by
      funext p
      rfl
    simp [resolve_titles, wikidata_label_search, List.map_take, List.map_map, hc]
  refine ⟨e, ?_⟩
  intro l hl
  rw [e] at hl
  have hl2 := List.take_subset 20 _ hl
  obtain ⟨p, hp, rfl⟩ := List.mem_map.mp hl2
  have hf := (List.mem_filter.mp hp).2
  simpa using hf

/-- Witness for `resolve_fallback_label_match`: the query "eArTh" matches
the stored label "Earth" and not "Moon". -/
theorem resolve_fallback_label_match_witness :
    resolve_titles []
        (.ok (wikidata_label_search [("Q2", "Earth"), ("Q42", "Moon")] "eArTh")) =
      ["Earth"] := by
  have H := resolve_fallback_label_match [] [("Q2", "Earth"), ("Q42", "Moon")]
    "eArTh" rfl
  rw [H.1]
  rfl

/-- Counterexample to claim C7: Against a transport that keeps failing with
HTTP 500 (the spec classifies a 5xx as a transient `TransportError`),
`wikidata_sparql` fails having issued exactly one underlying call: it did
not retry (which would take two calls) as the claim states. -/
theorem adapter_retry_cex :
    (wikidata_sparql_calls (fun _ => .status 500)).1 =
      .error (.httpStatus 500) ∧
    (wikidata_sparql_calls (fun _ => .status 500)).2 = 1 ∧
    (wikidata_sparql_calls (fun _ => .status 500)).2 ≠ 2 :=
  ⟨rfl, rfl, by decide⟩

/-- Claim C7, amended: Each adapter issues exactly one underlying HTTP call
per invocation whatever the transport outcome — no error, transient or
not, is ever retried — and the call's outcome is propagated verbatim. -/
theorem adapter_single_call (transport : Nat → HttpResp) :
    (wikidata_sparql_calls transport).2 = 1 ∧
    (search_wikipedia_calls transport).2 = 1 ∧
    (wikidata_sparql_calls transport).1 = requests_get transport 0 ∧
    (search_wikipedia_calls transport).1 = requests_get transport 0 :=
  ⟨rfl, rfl, rfl, rfl⟩

/-- Claim C8, code bug: The bookmark list is created empty and the
bookmark button deduplicates before appending, but the "Clear bookmarks"
button's value is discarded by the script — clicking it leaves the list
unchanged instead of emptying it: after bookmarking "Earth", a clear
click still yields ["Earth"]. -/
theorem clear_bookmarks_noop :
    bookmarks_init = [] ∧
    bookmarks_step (bookmarks_step bookmarks_init (.bookmarkClick "Earth"))
        (.bookmarkClick "Earth") = ["Earth"] ∧
    bookmarks_step (bookmarks_step bookmarks_init (.bookmarkClick "Earth"))
        .clearClick = ["Earth"] ∧
    (["Earth"] : List String) ≠ [] :=
  ⟨rfl, by decide, by decide, by decide⟩

/-- Claim C3: Infobox parsing extracts at most one table — the first
infobox-class table: a fragment without one yields the empty mapping (the
parse is a total function, so no error is raised), and when the first
infobox table is `t`, the result is `t`'s row mapping no matter how many
further tables follow in the fragment. -/
theorem parse_infobox_first_table (doc : List HNode) :
    (findInList isInfoboxTable doc = none → parse_infobox doc = []) ∧
    ∀ (t : HNode) (extra : List HNode),
      findInList isInfoboxTable doc = some t →
      parse_infobox (doc ++ extra) = tableInfo t := by
  constructor
  · intro h
    simp [parse_infobox, h]
  · intro t extra h
    unfold parse_infobox
    rw [findInList_append, h]
    rfl

/-- Witness for `parse_infobox_first_table`: a table-free fragment parses
to the empty mapping, and with two infobox tables only the first is
converted. -/
theorem parse_infobox_first_table_witness :
    parse_infobox [HNode.text "x"] = [] ∧
    parse_infobox [tblA, tblB] = tableInfo tblA := by
  constructor
  · exact (parse_infobox_first_table [HNode.text "x"]).1 rfl
  · exact (parse_infobox_first_table [tblA]).2 tblA [tblB] rfl

/-- Counterexample to claim C4: In `docImgMix` an image is nested inside the
infobox table (it carries no `src`), yet the code returns the URL of a
different image — the document's first one — where the claim's reading
(`claim_image`) returns the infobox image's absent URL; and in
`docImgPlain` the code returns null although the fragment contains an
image with a URL, because the document's first `img` has none. -/
theorem image_extraction_cex :
    ((findInList isInfoboxTable docImgMix).bind (elemFind isImg)).isSome = true ∧
    claim_image docImgMix = none ∧
    get_commons_image_url docImgMix = some "https://x" ∧
    get_commons_image_url docImgPlain = none ∧
    (findInList (fun n => truthy (imgSrc n)) docImgPlain).isSome = true :=
  ⟨rfl, rfl, rfl, rfl, rfl⟩

/-- Claim C4, amended: `get_commons_image_url` returns the first infobox
image's `src` when that `src` is truthy, and otherwise falls back to the
first `img` anywhere in the fragment, returning its `src` when truthy; in
every other case — in particular for a fragment containing no image at
all — it returns `none` and no error is raised. -/
theorem get_commons_image_url_spec (doc : List HNode) :
    get_commons_image_url doc =
      optOr ((findInList isInfoboxTable doc).bind infoboxImgUrl)
        (fallbackImg doc) ∧
    (findInList isImg doc = none → get_commons_image_url doc = none) := by
  constructor
  · cases hib : findInList isInfoboxTable doc with
    | none => simp [get_commons_image_url, hib, optOr]
    | some ib =>
      cases hf : elemFind isImg ib with
      | none => simp [get_commons_image_url, infoboxImgUrl, hib, hf, optOr]
      | some img =>
        cases hsrc : imgSrc img with
        | none => simp [get_commons_image_url, infoboxImgUrl, hib, hf, hsrc, optOr]
        | some s =>
          by_cases hs : s = "" <;>
            simp [get_commons_image_url, infoboxImgUrl, hib, hf, hsrc, hs, optOr]
  · intro h
    have hfb : fallbackImg doc = none := by
      unfold fallbackImg
      rw [h]
    cases hib : findInList isInfoboxTable doc with
    | none =>
      unfold get_commons_image_url
      rw [hib, hfb]
    | some ib =>
      have hpred := findInList_pred isInfoboxTable doc ib hib
      have hsub : findIn isImg ib = none :=
        findInList_sub_none isImg isInfoboxTable doc ib hib h
      cases ib with
      | text s => simp [isInfoboxTable] at hpred
      | elem tg a cs =>
        have hcs : findInList isImg cs = none :=
          findInList_children_none isImg tg a cs hsub
        unfold get_commons_image_url
        rw [hib]
        simp [elemFind, hcs, hfb]

/-- Witness for `get_commons_image_url_spec`: a fragment with no image
yields `none`. -/
theorem get_commons_image_url_spec_witness :
    get_commons_image_url [HNode.text "a"] = none :=
  (get_commons_image_url_spec [HNode.text "a"]).2 rfl

/-- Counterexample to claim C10: With the summary lookup returning `None` and a
fragment with no usable image, line 413 short-circuits on the falsy
`img_url` before reading the unbound `thumb`: the render completes instead
of aborting into the error handler. -/
theorem render_no_summary_completes :
    render_page none [] none = .ok ⟨none, [], none, false⟩ := rfl

/-- Claim C10, amended: With the summary lookup returning `None`, the render
aborts into the surrounding error handler (through the `NameError` on
`thumb`) exactly when `get_commons_image_url` returns a truthy URL; when
it does not, the short-circuit at line 413 skips the read of `thumb` and
the page renders the remaining enrichment (infobox, Wikidata section)
normally. -/
theorem render_no_summary_abort_iff (doc : List HNode) (wid : Option String) :
    (truthy (get_commons_image_url doc) = true →
      render_page none doc wid = .error "NameError: name thumb is not defined") ∧
    (truthy (get_commons_image_url doc) = false →
      render_page none doc wid = .ok ⟨none, parse_infobox doc, none, wid.isSome⟩) := by
  constructor <;> intro h <;> simp [render_page, h]

/-- Witness for `render_no_summary_abort_iff`: a fragment with an image
aborts with the `NameError`, a fragment without one renders. -/
theorem render_no_summary_abort_iff_witness :
    render_page none [imgX] none =
      .error "NameError: name thumb is not defined" ∧
    render_page none [HNode.text "t"] none = .ok ⟨none, [], none, false⟩ := by
  constructor
  · exact (render_no_summary_abort_iff [imgX] none).1 rfl
  · exact (render_no_summary_abort_iff [HNode.text "t"] none).2 rfl

/-- Claim C1, modelled from the spec: Every `EnrichedEntity` the modelled
Aggregator produces has exactly one `sourceStatus` entry for every adapter
it attempted — also for adapters that failed, so success can never be
correctly inferred from key absence — and no entry for adapters it did not
attempt; every recorded status is one of the four defined values. -/
theorem enrich_sourceStatus_total (c : Candidate) (r : AdapterResults)
    (e : EnrichedEntity) (h : enrich c r = .ok e) :
    (∀ a : AdapterName,
      (e.sourceStatus.filter (fun p => p.1 = a)).length =
        if attempted c r a then 1 else 0) ∧
    ∀ p ∈ e.sourceStatus,
      p.2 = AdapterStatus.ok ∨ p.2 = AdapterStatus.timeout ∨
      p.2 = AdapterStatus.notFound ∨ p.2 = AdapterStatus.error := by
  unfold enrich at h
  cases hs : r.summaryR with
  | error err => rw [hs] at h; cases h
  | ok s =>
    rw [hs] at h
    cases hc : c.canonicalId with
    | none =>
      rw [hc] at h
      simp only [Except.ok.injEq] at h
      subst h
      refine ⟨?_, fun p _ => adapterStatus_cases p.2⟩
      intro a
      cases a <;> simp [attempted, hc, List.filter]
    | some qid =>
      rw [hc] at h
      cases hco : r.coordinatesR with
      | ok co =>
        rw [hco] at h
        cases co with
        | none =>
          simp only [Except.ok.injEq] at h
          subst h
          refine ⟨?_, fun p _ => adapterStatus_cases p.2⟩
          intro a
          cases a <;> simp [attempted, hc, hco, List.filter]
        | some pt =>
          simp only [Except.ok.injEq] at h
          subst h
          refine ⟨?_, fun p _ => adapterStatus_cases p.2⟩
          intro a
          cases a <;> simp [attempted, hc, hco, List.filter]
      | error err2 =>
        rw [hco] at h
        simp only [Except.ok.injEq] at h
        subst h
        refine ⟨?_, fun p _ => adapterStatus_cases p.2⟩
        intro a
        cases a <;> simp [attempted, hc, hco, List.filter]

/-- Witness for `enrich_sourceStatus_total`: for `cEx`/`rEx` — where the
property branch timed out — the produced entity still records exactly one
`properties` status, and it is `timeout`. -/
theorem enrich_sourceStatus_total_witness :
    (eEx.sourceStatus.filter (fun p => p.1 = AdapterName.properties)).length = 1 ∧
    (AdapterName.properties, AdapterStatus.timeout) ∈ eEx.sourceStatus := by
  have h : enrich cEx rEx = Except.ok eEx := rfl
  have H := (enrich_sourceStatus_total cEx rEx eEx h).1 AdapterName.properties
  constructor
  · rw [H]
    rfl
  · decide

end WikiBook
